import Mathlib

/-!
# HAIGU_DHT22 I2C sensor driver: a shallow embedding

This file embeds the protocol/conversion engine of the `HAIGU_DHT22` Python
driver (`src/HaiguDht22.py`) and proves properties of it:

* CRC-8 integrity check (`_calculate_checksum`);
* the byte/coefficient acquisition layer (`_get_byte_with_crc_check`,
  `_get_coefficient`, `get_humidity_coefficients`);
* the conversion primitives (`_compute_temperature`, `_compute_humidity`);
* the measurement operations (`get_temperature`, `get_humidity`,
  `get_temperature_and_humidity`, `soft_reset`);
* the busy-retry read primitive (`_read`) and the coefficient-acquisition
  loop of `__init__`.

Python floats are modelled as rationals; `round` is modelled as Python's
round-half-to-even.  Python exceptions (`ZeroDivisionError` from the humidity
transfer function's division, `TypeError` from arithmetic on `None`) are
modelled with `Except`: an `.error` value marks a raised exception escaping
the operation, while an `.ok` value carries the updated driver state and the
returned (possibly absent) measurement.  Bus transactions are modelled by
passing the response frames (lists of byte values) as explicit arguments.
-/

namespace HaiguDht22

set_option maxRecDepth 8000

/-- Python's `round(x)` (also `round(x, 0)` followed by `int(...)`):
round to the nearest integer, ties to the even neighbour. -/
def pyRound (q : ℚ) : ℤ :=
  if q - q.floor < 1/2 then q.floor
  else if 1/2 < q - q.floor then q.floor + 1
  else if q.floor % 2 = 0 then q.floor else q.floor + 1

/-- Python's `round(x, 1)`: round to one decimal place, ties to even. -/
def roundTo1 (q : ℚ) : ℚ := (pyRound (q * 10) : ℚ) / 10

/-- The Python exceptions the conversion code can raise: `ZeroDivisionError`
from `/` with a zero divisor, and `TypeError` from arithmetic on `None`. -/
inductive PyError where
  | zeroDivision : PyError
  | typeError : PyError
deriving DecidableEq

/-- The mutable fields of a `HAIGU_DHT22` instance that the measurement code
reads and writes: the cached calibration coefficients `humA`/`humB` and the
cached last temperature `_temperature`.  Each is `none` when the Python
attribute is `None`. -/
structure DriverState where
  humA : Option ℕ
  humB : Option ℕ
  temperature : Option ℚ
deriving DecidableEq

/-- One shift step of the CRC-8 inner loop of `_calculate_checksum`:
`crc = ((crc << 1) ^ 0x131 if crc & 0x80 else crc << 1) & 0xFF`. -/
def crcStep (crc : ℕ) : ℕ :=
  if crc &&& 0x80 ≠ 0 then ((crc <<< 1) ^^^ 0x131) &&& 0xFF
  else (crc <<< 1) &&& 0xFF

/-- `_calculate_checksum(value)`: CRC-8 of `struct.pack('>H', value)`
(the 2-byte big-endian encoding of a 16-bit word), initial register `0xFF`:
for each byte, XOR it into the register, then run 8 shift steps. -/
def calculateChecksum (value : ℕ) : ℕ :=
  let data := [(value >>> 8) &&& 0xFF, value &&& 0xFF]
  data.foldl (fun crc b => (crcStep^[8]) (crc ^^^ b)) 0xFF

/-- One XOR-and-shift round of CRC-8, written from the spec's words
(section 4.2): polynomial `0x131`, MSB-first, truncated to 8 bits, as a
plain arithmetic description (`* 2` and `% 256` rather than shifts and
masks). -/
def crc8Round (crc : ℕ) : ℕ :=
  if 0x80 ≤ crc then ((crc * 2) ^^^ 0x131) % 256 else crc * 2 % 256

/-- CRC-8 of a byte sequence, written from the spec's words (section 4.2):
initial register `0xFF`, each byte XORed in and processed MSB-first through
8 rounds, no final XOR. -/
def crc8 (bytes : List ℕ) : ℕ :=
  bytes.foldl (fun crc b => (crc8Round^[8]) (crc ^^^ b)) 0xFF

/-- `_get_byte_with_crc_check(command)`: the 3-byte response frame
`(byte, dummy, crc_received)` is accepted iff
`_calculate_checksum(byte << 8 | dummy) == crc_received`; on success the
value byte is returned, otherwise `None`. -/
def getByteWithCrcCheck (frame : List ℕ) : Option ℕ :=
  let byte := frame.getD 0 0
  let dummy := frame.getD 1 0
  let crc_received := frame.getD 2 0
  if calculateChecksum (byte <<< 8 ||| dummy) = crc_received then some byte
  else none

/-- `_get_coefficient(command)`: read one byte with `command` and one with
`command + 1` (frames `frame1`, `frame2`); if either fails its CRC check the
coefficient is `None`, otherwise it is `low << 8 | high` (the byte read with
`command`, shifted into the high position, OR the byte read with
`command + 1`). -/
def getCoefficient (frame1 frame2 : List ℕ) : Option ℕ :=
  let low := getByteWithCrcCheck frame1
  let high := getByteWithCrcCheck frame2
  match low, high with
  | some lo, some hi => some (lo <<< 8 ||| hi)
  | _, _ => none

/-- `get_humidity_coefficients()`: coefficient A from the two frames
answering `CMD_GET_HUMCOEFA_H` and `CMD_GET_HUMCOEFA_H + 1`, coefficient B
likewise; returned as a pair, each possibly `None`. -/
def get_humidity_coefficients (fA1 fA2 fB1 fB2 : List ℕ) :
    Option ℕ × Option ℕ :=
  (getCoefficient fA1 fA2, getCoefficient fB1 fB2)

/-- The spec's reading of a calibration coefficient (section 3: "two signed
16-bit values obtained by concatenating a high byte and low byte"): the
concatenated 16-bit word reinterpreted as a two's-complement signed value. -/
def toSigned16 (n : ℕ) : ℤ := if 0x8000 ≤ n then (n : ℤ) - 0x10000 else (n : ℤ)

/-- A coefficient as the spec describes it: the code's concatenated word,
interpreted as a signed 16-bit value. -/
def getCoefficientSigned (frame1 frame2 : List ℕ) : Option ℤ :=
  (getCoefficient frame1 frame2).map toSigned16

/-- `_compute_temperature(value)`: mask off the low five bits
(`value &= 0xFFE0`), rebase values above `0x7FF` by subtracting `0xFFFE`,
convert with `round(40.0 + value/256.0, 1)`, cache the result in
`self._temperature` and also return it. -/
def computeTemperature (st : DriverState) (value : ℕ) : DriverState × ℚ :=
  let masked := value &&& 0xFFE0
  let v : ℤ := if 0x7FF < masked then (masked : ℤ) - 0xFFFE else (masked : ℤ)
  let t : ℚ := roundTo1 (40 + (v : ℚ) / 256)
  ({ st with temperature := some t }, t)

/-- `_compute_humidity(value, temperature=None)`: note that the
`temperature` parameter is never read; the compensation term uses the cached
`self._temperature`.  Evaluation order of the Python body:
`value - self.humB` raises `TypeError` if `humB` is `None`; then
`self.humA - self.humB` raises `TypeError` if `humA` is `None`; the division
raises `ZeroDivisionError` if `humA == humB`; then
`self._temperature - 25.0` raises `TypeError` if `_temperature` is `None`.
Otherwise the result is clamped to `[0, 100]` and returned as
`int(round(rel, 0))`. -/
def computeHumidity (st : DriverState) (value : ℕ) (temperature : Option ℚ) :
    Except PyError ℤ :=
  match st.humB with
  | none => .error .typeError
  | some humB =>
    match st.humA with
    | none => .error .typeError
    | some humA =>
      if humA = humB then .error .zeroDivision
      else
        match st.temperature with
        | none => .error .typeError
        | some temp =>
          let rh : ℚ := 30 + ((value : ℚ) - humB) * 60 / ((humA : ℚ) - humB)
          let rel : ℚ := rh + 1/4 * (temp - 25)
          let rel2 : ℚ := if 100 < rel then 100 else if rel < 0 then 0 else rel
          .ok (pyRound rel2)

/-- `_read_integer_response()`: unpack the 3-byte frame as a big-endian
16-bit word and its CRC byte; return the word iff the CRC matches. -/
def readIntegerResponse (frame : List ℕ) : Option ℕ :=
  let raw := frame.getD 0 0 * 256 + frame.getD 1 0
  if calculateChecksum raw = frame.getD 2 0 then some raw else none

/-- `get_temperature()`: read a 3-byte response (`frame`); on CRC failure
return `None` without touching the cache; otherwise convert (which caches
the temperature) and return it. -/
def get_temperature (st : DriverState) (frame : List ℕ) :
    DriverState × Option ℚ :=
  match readIntegerResponse frame with
  | none => (st, none)
  | some value =>
    let p := computeTemperature st value
    (p.1, some p.2)

/-- `get_humidity()`: read a 3-byte response (`humFrame`); on CRC failure
return `None`.  If no temperature is cached, first run `get_temperature()`
(whose bus response is `tempFrame`).  Then convert, which can raise. -/
def get_humidity (st : DriverState) (humFrame tempFrame : List ℕ) :
    Except PyError (DriverState × Option ℤ) :=
  match readIntegerResponse humFrame with
  | none => .ok (st, none)
  | some value =>
    let st1 := if st.temperature = none then (get_temperature st tempFrame).1
               else st
    match computeHumidity st1 value none with
    | .error e => .error e
    | .ok r => .ok (st1, some r)

/-- `get_temperature_and_humidity()`: unpack the 6-byte frame as
`(temp_data, temp_checksum, humidity_data, humidity_checksum)`.  The
temperature is converted iff its checksum matches; the humidity is converted
iff its checksum matches *and* the temperature succeeded. -/
def get_temperature_and_humidity (st : DriverState) (frame : List ℕ) :
    Except PyError (DriverState × Option ℚ × Option ℤ) :=
  let temp_data := frame.getD 0 0 * 256 + frame.getD 1 0
  let temp_checksum := frame.getD 2 0
  let humidity_data := frame.getD 3 0 * 256 + frame.getD 4 0
  let humidity_checksum := frame.getD 5 0
  if calculateChecksum temp_data = temp_checksum then
    let p := computeTemperature st temp_data
    if calculateChecksum humidity_data = humidity_checksum then
      match computeHumidity p.1 humidity_data (some p.2) with
      | .error e => .error e
      | .ok h => .ok (p.1, some p.2, some h)
    else .ok (p.1, some p.2, none)
  else .ok (st, none, none)

/-- `soft_reset()`: writes `CMD_SOFT_RESET` to the bus; no response is read
and no cached field is touched. -/
def soft_reset (st : DriverState) : DriverState := st

/-- `_read(count)`: keep reading frames from the transport (`reads k` is the
frame filled by the `k`-th read attempt) until the first byte differs from
the busy sentinel `0xFF`, sleeping 1 ms between busy attempts.  The Python
loop is unbounded; `fuel` bounds the model, `none` meaning the loop was
still running.  On success, returns the frame, the number of read attempts
made, and the number of 1 ms sleeps performed. -/
def readLoop (reads : ℕ → List ℕ) : ℕ → ℕ → ℕ → Option (List ℕ × ℕ × ℕ)
  | 0, _, _ => none
  | fuel + 1, i, sleeps =>
    if (reads i).headI ≠ 0xFF then some (reads i, i + 1, sleeps)
    else readLoop reads fuel (i + 1) (sleeps + 1)

/-- The coefficient-acquisition loop of `__init__`: repeatedly call
`get_humidity_coefficients()` (attempt `k` is answered by the four frames
`resp k`) until both coefficients are present, then construct the instance
state (with `_temperature = None`, as set before the loop).  The Python loop
is unbounded; `fuel` bounds the model. -/
def initDriver (resp : ℕ → List ℕ × List ℕ × List ℕ × List ℕ) :
    ℕ → ℕ → Option DriverState
  | 0, _ => none
  | fuel + 1, i =>
    let r := resp i
    let p := get_humidity_coefficients r.1 r.2.1 r.2.2.1 r.2.2.2
    match p.1, p.2 with
    | some a, some b => some { humA := some a, humB := some b, temperature := none }
    | some _, none => initDriver resp fuel (i + 1)
    | none, _ => initDriver resp fuel (i + 1)

/-- A transport stub for the busy-retry property: busy sentinel for the
first two reads, then a valid frame. -/
def busyReads (k : ℕ) : List ℕ := if k < 2 then [0xFF, 0, 0] else [1, 2, 3]

/-- A response table whose first attempt already answers all four
coefficient sub-reads with CRC-valid frames. -/
def coeffResponses (_ : ℕ) : List ℕ × List ℕ × List ℕ × List ℕ :=
  ([5, 0, 246], [0, 0, 129], [5, 0, 246], [0, 0, 129])

/-! ## Rounding lemmas -/

theorem ratFloor_eq (q : ℚ) : (q.floor : ℤ) = ⌊q⌋ := by
  rw [Rat.floor_def', Rat.floor_def]

theorem pyRound_cases (q : ℚ) : pyRound q = ⌊q⌋ ∨ pyRound q = ⌊q⌋ + 1 := by
  simp only [pyRound, ratFloor_eq]
  split_ifs <;> simp

theorem le_pyRound (q : ℚ) (b : ℤ) (h : (b : ℚ) ≤ q) : b ≤ pyRound q := by
  have hf : b ≤ ⌊q⌋ := Int.le_floor.mpr h
  rcases pyRound_cases q with h1 | h1 <;> omega

theorem pyRound_le (q : ℚ) (b : ℤ) (h : q ≤ (b : ℚ)) : pyRound q ≤ b := by
  have hf : ⌊q⌋ ≤ b := by
    have h2 := Int.floor_le_floor h
    rwa [Int.floor_intCast] at h2
  simp only [pyRound, ratFloor_eq]
  split_ifs with h1 h2
  · exact hf
  · have h12 : (1/2 : ℚ) ≤ q - ⌊q⌋ := le_of_lt h2
    have hne : ⌊q⌋ ≠ b := fun he => by rw [he] at h12; linarith
    omega
  · exact hf
  · have h12 : (1/2 : ℚ) ≤ q - ⌊q⌋ := not_lt.mp h1
    have hne : ⌊q⌋ ≠ b := fun he => by rw [he] at h12; linarith
    omega

theorem pyRound_add_int (q : ℚ) (m : ℤ) (hm : m % 2 = 0) :
    pyRound (q + m) = pyRound q + m := by
  have hfl : ⌊q + (m : ℚ)⌋ = ⌊q⌋ + m := Int.floor_add_int q m
  simp only [pyRound, ratFloor_eq, hfl]
  have harg : q + (m : ℚ) - ((⌊q⌋ + m : ℤ) : ℚ) = q - ⌊q⌋ := by push_cast; ring
  rw [harg]
  have hpar : (⌊q⌋ + m) % 2 = ⌊q⌋ % 2 := by omega
  rw [hpar]
  split_ifs <;> omega

theorem roundTo1_add_one (q : ℚ) : roundTo1 (q + 1) = roundTo1 q + 1 := by
  unfold roundTo1
  have h : (q + 1) * 10 = q * 10 + ((10 : ℤ) : ℚ) := by push_cast; ring
  rw [h, pyRound_add_int (q * 10) 10 (by norm_num)]
  push_cast
  ring

/-! ## Bit-masking lemmas -/

set_option maxRecDepth 4000 in
set_option maxHeartbeats 2000000 in
theorem land_FFE0_chunk :
    ∀ hi < 256, ∀ lo < 256, (hi * 256 + lo) &&& 0xFFE0 = (hi * 256 + lo) / 32 * 32 := by
  decide

theorem land_FFE0 {v : ℕ} (h : v < 65536) : v &&& 0xFFE0 = v / 32 * 32 := by
  have h1 : v / 256 < 256 := by omega
  have h2 : v % 256 < 256 := by omega
  have h3 := land_FFE0_chunk (v / 256) h1 (v % 256) h2
  have hv : v / 256 * 256 + v % 256 = v := by omega
  rwa [hv] at h3

theorem and255_eq_mod (x : ℕ) : x &&& 0xFF = x % 256 := by
  have h := Nat.and_pow_two_sub_one_eq_mod x 8
  norm_num at h
  exact h

theorem xor_lt_256 {a b : ℕ} (ha : a < 256) (hb : b < 256) : a ^^^ b < 256 := by
  have e : (2 : ℕ) ^ 8 = 256 := by norm_num
  exact e ▸ Nat.xor_lt_two_pow (e.symm ▸ ha) (e.symm ▸ hb)

theorem shiftLeft8_or {b1 b2 : ℕ} (hb2 : b2 < 256) : b1 <<< 8 ||| b2 = b1 * 256 + b2 := by
  have hb : b2 < 2 ^ 8 := by omega
  have h := Nat.mul_add_lt_is_or hb b1
  rw [Nat.shiftLeft_eq, Nat.mul_comm, ← h]

/-! ## CRC-8 lemmas -/

set_option maxRecDepth 2000 in
theorem crcStep_matches : ∀ c < 256, crcStep c = crc8Round c ∧ crcStep c < 256 := by
  decide

theorem crcIter_matches :
    ∀ n, ∀ c < 256, (crcStep^[n]) c = (crc8Round^[n]) c ∧ (crcStep^[n]) c < 256 := by
  intro n
  induction n with
  | zero =>
    intro c hc
    exact ⟨rfl, hc⟩
  | succ n ih =>
    intro c hc
    rw [Function.iterate_succ_apply, Function.iterate_succ_apply]
    obtain ⟨he, hb⟩ := crcStep_matches c hc
    obtain ⟨ihe, ihb⟩ := ih (crcStep c) hb
    refine ⟨?_, ihb⟩
    rw [ihe, he]

theorem calculateChecksum_eq_crc8 {v : ℕ} (hv : v < 65536) :
    calculateChecksum v = crc8 [v / 256, v % 256] ∧ calculateChecksum v < 256 := by
  have e256 : (2 : ℕ) ^ 8 = 256 := by norm_num
  have hd1 : v / 256 < 256 := by omega
  have hd2 : v % 256 < 256 := by omega
  have hb1 : (v >>> 8) &&& 0xFF = v / 256 := by
    rw [Nat.shiftRight_eq_div_pow, e256, and255_eq_mod]
    omega
  have hb2 : v &&& 0xFF = v % 256 := and255_eq_mod v
  unfold calculateChecksum crc8
  simp only [List.foldl_cons, List.foldl_nil]
  rw [hb1, hb2]
  have hstep1 := crcIter_matches 8 (255 ^^^ v / 256) (xor_lt_256 (by norm_num) hd1)
  have harg : (crcStep^[8]) (255 ^^^ v / 256) ^^^ v % 256 < 256 := xor_lt_256 hstep1.2 hd2
  have hstep2 := crcIter_matches 8 ((crcStep^[8]) (255 ^^^ v / 256) ^^^ v % 256) harg
  constructor
  · rw [hstep2.1, hstep1.1]
  · exact hstep2.2

/-! ## Clamping -/

theorem clamp_bounds (x : ℚ) :
    0 ≤ (if 100 < x then (100 : ℚ) else if x < 0 then 0 else x) ∧
      (if 100 < x then (100 : ℚ) else if x < 0 then 0 else x) ≤ 100 := by
  split_ifs with h1 h2 <;> constructor <;> linarith

/-! ## Claim theorems -/

/-- **C6**: `_calculate_checksum` is the CRC-8 described in the spec: it
equals the spec-level `crc8` applied to the 2-byte big-endian encoding of
its 16-bit input, its output is an 8-bit value, and it is a pure
deterministic function (`crc(x) = crc(x)`, and no driver state occurs in
its signature at all). -/
theorem c6_checksum_is_crc8 (v : ℕ) (hv : v < 65536) :
    calculateChecksum v = crc8 [v / 256, v % 256] ∧ calculateChecksum v < 256 ∧
      calculateChecksum v = calculateChecksum v := by
  obtain ⟨h1, h2⟩ := calculateChecksum_eq_crc8 hv
  exact ⟨h1, h2, rfl⟩

/-- Witness for C6 at the raw word 5000. -/
theorem c6_checksum_is_crc8_witness :
    calculateChecksum 5000 = crc8 [5000 / 256, 5000 % 256] ∧
      calculateChecksum 5000 < 256 ∧ calculateChecksum 5000 = calculateChecksum 5000 :=
  c6_checksum_is_crc8 5000 (by norm_num)

/-- **C7**: with both coefficients present and distinct and a cached
temperature present, `_compute_humidity` succeeds and its result lies in
`[0, 100]`, for every raw humidity word, coefficient pair and compensation
temperature. -/
theorem c7_humidity_clamped (value hA hB : ℕ) (t : ℚ) (h : hA ≠ hB) :
    ∃ r : ℤ, computeHumidity ⟨some hA, some hB, some t⟩ value none = .ok r ∧
      0 ≤ r ∧ r ≤ 100 := by
  simp only [computeHumidity, if_neg h]
  refine ⟨_, rfl, ?_, ?_⟩
  · exact le_pyRound _ 0 (by exact_mod_cast (clamp_bounds _).1)
  · exact pyRound_le _ 100 (by exact_mod_cast (clamp_bounds _).2)

/-- Witness for C7: the spec's own scenario `humA = 9000`, `humB = 1000`,
`T = 25`, `v = 5000`. -/
theorem c7_humidity_clamped_witness :
    ∃ r : ℤ, computeHumidity ⟨some 9000, some 1000, some 25⟩ 5000 none = .ok r ∧
      0 ≤ r ∧ r ≤ 100 :=
  c7_humidity_clamped 5000 9000 1000 25 (by norm_num)

/-- **C9**: `_compute_humidity` ignores its `temperature` parameter: the
result depends only on the driver state (whose `_temperature` field supplies
the compensation term) and the raw word.  Hence the temperature that
`get_temperature_and_humidity` passes as second argument has no effect. -/
theorem c9_temperature_param_ignored (st : DriverState) (value : ℕ)
    (t1 t2 : Option ℚ) :
    computeHumidity st value t1 = computeHumidity st value t2 := rfl

/-- **C5**: in `get_temperature_and_humidity`, if the temperature checksum
byte does not match, the temperature is absent, the humidity conversion is
not attempted (compensation dependency), and both elements of the returned
pair are absent; the state is unchanged. -/
theorem c5_combined_temp_first (st : DriverState) (frame : List ℕ)
    (h : calculateChecksum (frame.getD 0 0 * 256 + frame.getD 1 0) ≠ frame.getD 2 0) :
    get_temperature_and_humidity st frame = .ok (st, none, none) := by
  simp only [get_temperature_and_humidity]
  rw [if_neg h]

/-- Witness for C5: an all-zero frame (the checksum of the zero word is 129,
not 0). -/
theorem c5_combined_temp_first_witness :
    get_temperature_and_humidity ⟨some 9000, some 1000, none⟩ [0, 0, 0, 0, 0, 0] =
      .ok (⟨some 9000, some 1000, none⟩, none, none) :=
  c5_combined_temp_first ⟨some 9000, some 1000, none⟩ [0, 0, 0, 0, 0, 0] (by decide)

theorem readLoop_finds (reads : ℕ → List ℕ) (N : ℕ)
    (hb : ∀ k < N, (reads k).headI = 0xFF) (hv : (reads N).headI ≠ 0xFF) :
    ∀ fuel j s, j ≤ N → N - j < fuel →
      readLoop reads fuel j s = some (reads N, N + 1, s + (N - j)) := by
  intro fuel
  induction fuel with
  | zero => intro j s hj hf; omega
  | succ fuel ih =>
    intro j s hj hf
    rcases eq_or_lt_of_le hj with hjN | hjN
    · subst hjN
      simp only [readLoop]
      rw [if_pos hv]
      simp
    · have hbj := hb j hjN
      simp only [readLoop]
      rw [if_neg (by simp [hbj])]
      have heq := ih (j + 1) (s + 1) (by omega) (by omega)
      rw [heq]
      have harith : s + 1 + (N - (j + 1)) = s + (N - j) := by omega
      rw [harith]

/-- **C8**: if the transport answers the first `N` read attempts with the
busy sentinel `0xFF` in the first byte and the `(N+1)`-th attempt with a
frame whose first byte is not `0xFF`, then `_read` returns that frame after
exactly `N + 1` read attempts, having slept once between consecutive busy
attempts (`N` sleeps), for any fuel large enough that the loop model does
not run out. -/
theorem c8_busy_retry (reads : ℕ → List ℕ) (N fuel : ℕ)
    (hb : ∀ k < N, (reads k).headI = 0xFF) (hv : (reads N).headI ≠ 0xFF)
    (hfuel : N < fuel) :
    readLoop reads fuel 0 0 = some (reads N, N + 1, N) := by
  have h := readLoop_finds reads N hb hv fuel 0 0 (by omega) (by omega)
  simpa using h

/-- Witness for C8: two busy reads, then the frame `[1, 2, 3]` is returned
on the third attempt. -/
theorem c8_busy_retry_witness : readLoop busyReads 5 0 0 = some ([1, 2, 3], 3, 2) := by
  have h := c8_busy_retry busyReads 2 5 (by decide) (by decide) (by norm_num)
  simpa [busyReads] using h

/-- **C1** (code bug): the division by `humA - humB` in `_compute_humidity`
is *not* guarded.  With equal cached coefficients, both `get_humidity` (on a
CRC-valid humidity frame) and `get_temperature_and_humidity` (on a frame
with both checksums valid) raise `ZeroDivisionError` instead of returning an
absent result. -/
theorem c1_division_unguarded :
    get_humidity ⟨some 1000, some 1000, some 25⟩ [19, 136, 1] [] =
      .error .zeroDivision ∧
    get_temperature_and_humidity ⟨some 1000, some 1000, some 25⟩
      [0, 0, 129, 19, 136, 1] = .error .zeroDivision :=
  ⟨rfl, rfl⟩

/-- **C2** (code bug): when no temperature is cached, the humidity frame
passes its CRC check, and the interleaved `get_temperature()` fails its CRC
check (leaving the cache absent), `get_humidity` raises `TypeError` (from
`self._temperature - 25.0` with `_temperature = None`) instead of returning
the absent result. -/
theorem c2_crash_on_missing_compensation :
    get_humidity ⟨some 9000, some 1000, none⟩ [19, 136, 1] [0, 0, 0] =
      .error .typeError := rfl

/-- **C3** (counterexample): the affine law `T(v+256) = T(v) + 1` fails at
`v = 1792`: `T(1792) = 47.0` but `T(2048) = -208.0`, because
`_compute_temperature` rebases masked values above `0x7FF` by subtracting
`0xFFFE`. -/
theorem c3_affine_counterexample :
    (computeTemperature ⟨none, none, none⟩ 2048).2 ≠
      (computeTemperature ⟨none, none, none⟩ 1792).2 + 1 := by
  have hm1 : (2048 : ℕ) &&& 0xFFE0 = 2048 := by decide
  have hm2 : (1792 : ℕ) &&& 0xFFE0 = 1792 := by decide
  have e1 : (computeTemperature ⟨none, none, none⟩ 2048).2 = -208 := by
    simp only [computeTemperature, hm1]
    rw [if_pos (by norm_num)]
    norm_num [roundTo1, pyRound, ratFloor_eq]
  have e2 : (computeTemperature ⟨none, none, none⟩ 1792).2 = 47 := by
    simp only [computeTemperature, hm2]
    rw [if_neg (by norm_num)]
    norm_num [roundTo1, pyRound, ratFloor_eq]
  rw [e1, e2]
  norm_num

/-- **C3 amended**: the affine law does hold away from the rebasing
threshold: for every raw word `v` with `v + 256` still a 16-bit word and `v`
outside `[0x700, 0x7FF]`, `T(v + 256) = T(v) + 1`. -/
theorem c3_affine_amended (st : DriverState) (v : ℕ) (h1 : v + 256 < 65536)
    (h2 : v < 0x700 ∨ 0x7FF < v) :
    (computeTemperature st (v + 256)).2 = (computeTemperature st v).2 + 1 := by
  have hm : v &&& 0xFFE0 = v / 32 * 32 := land_FFE0 (by omega)
  have hm2 : (v + 256) &&& 0xFFE0 = (v + 256) / 32 * 32 := land_FFE0 h1
  have hadd : (v + 256) &&& 0xFFE0 = (v &&& 0xFFE0) + 256 := by
    rw [hm, hm2]; omega
  have hle : v &&& 0xFFE0 ≤ v := Nat.and_le_left
  simp only [computeTemperature, hadd]
  rcases h2 with hlow | hhigh
  · have hb1 : ¬ (0x7FF < v &&& 0xFFE0) := by omega
    have hb2 : ¬ (0x7FF < (v &&& 0xFFE0) + 256) := by omega
    rw [if_neg hb1, if_neg hb2]
    have harg : 40 + ((((v &&& 0xFFE0) + 256 : ℕ) : ℤ) : ℚ) / 256 =
        (40 + (((v &&& 0xFFE0 : ℕ) : ℤ) : ℚ) / 256) + 1 := by push_cast; ring
    rw [harg, roundTo1_add_one]
  · have hgt : 0x7FF < v &&& 0xFFE0 := by rw [hm]; omega
    have hb1 : 0x7FF < (v &&& 0xFFE0) + 256 := by omega
    rw [if_pos hgt, if_pos hb1]
    have harg : 40 + (((((v &&& 0xFFE0) + 256 : ℕ) : ℤ) - 0xFFFE : ℤ) : ℚ) / 256 =
        (40 + ((((v &&& 0xFFE0 : ℕ) : ℤ) - 0xFFFE : ℤ) : ℚ) / 256) + 1 := by
      push_cast; ring
    rw [harg, roundTo1_add_one]

/-- Witness for the amended C3 at `v = 100`. -/
theorem c3_affine_amended_witness :
    (computeTemperature ⟨none, none, none⟩ 356).2 =
      (computeTemperature ⟨none, none, none⟩ 100).2 + 1 :=
  c3_affine_amended ⟨none, none, none⟩ 100 (by norm_num) (Or.inl (by norm_num))

/-- **C4** (counterexample): the coefficients are *not* signed: reading the
byte `0xFF` (valid CRC) for the high half and `0x00` (valid CRC) for the low
half yields the unsigned word 65280, not the signed 16-bit value -256 that
the spec's "signed" reading prescribes. -/
theorem c4_coefficient_unsigned_counterexample :
    getCoefficient [255, 0, 0] [0, 0, 129] = some 65280 ∧
    getCoefficientSigned [255, 0, 0] [0, 0, 129] = some (-256) ∧
    ¬ ((65280 : ℤ) = -256) :=
  ⟨rfl, rfl, by decide⟩

/-- **C4 amended**: each coefficient is the *unsigned* 16-bit concatenation
of the byte read with the coefficient's first command (high position) and
the byte read with `command + 1` (low position), each byte independently
CRC-validated against its `(byte << 8 | reserved)` word; the coefficient is
absent whenever either sub-read fails its CRC check. -/
theorem c4_coefficient_amended (b1 d1 c1 b2 d2 c2 : ℕ) (hb1 : b1 < 256)
    (hb2 : b2 < 256) :
    (calculateChecksum (b1 <<< 8 ||| d1) = c1 →
     calculateChecksum (b2 <<< 8 ||| d2) = c2 →
       getCoefficient [b1, d1, c1] [b2, d2, c2] = some (b1 * 256 + b2) ∧
         b1 * 256 + b2 < 65536) ∧
    ((calculateChecksum (b1 <<< 8 ||| d1) ≠ c1 ∨
      calculateChecksum (b2 <<< 8 ||| d2) ≠ c2) →
       getCoefficient [b1, d1, c1] [b2, d2, c2] = none) := by
  constructor
  · intro h1 h2
    refine ⟨?_, by omega⟩
    unfold getCoefficient getByteWithCrcCheck
    dsimp only [List.getD_cons_zero, List.getD_cons_succ]
    rw [if_pos h1, if_pos h2]
    show some (b1 <<< 8 ||| b2) = some (b1 * 256 + b2)
    rw [shiftLeft8_or hb2]
  · intro h
    unfold getCoefficient getByteWithCrcCheck
    dsimp only [List.getD_cons_zero, List.getD_cons_succ]
    rcases h with h | h
    · rw [if_neg h]
    · rw [if_neg h]
      by_cases hc1 : calculateChecksum (b1 <<< 8 ||| d1) = c1
      · rw [if_pos hc1]
      · rw [if_neg hc1]

/-- Witness for the amended C4: bytes 5 and 0 with their correct CRC bytes
give the coefficient 1280. -/
theorem c4_coefficient_amended_witness :
    getCoefficient [5, 0, 246] [0, 0, 129] = some (5 * 256 + 0) ∧
      5 * 256 + 0 < 65536 :=
  (c4_coefficient_amended 5 0 246 0 0 129 (by norm_num) (by norm_num)).1
    (by decide) (by decide)

theorem initDriver_coeffs_present (resp : ℕ → List ℕ × List ℕ × List ℕ × List ℕ) :
    ∀ fuel i st, initDriver resp fuel i = some st →
      st.humA.isSome ∧ st.humB.isSome := by
  intro fuel
  induction fuel with
  | zero => intro i st h; simp [initDriver] at h
  | succ fuel ih =>
    intro i st h
    simp only [initDriver] at h
    split at h
    · cases h
      exact ⟨rfl, rfl⟩
    · exact ih _ _ h
    · exact ih _ _ h

theorem get_temperature_preserves (st : DriverState) (frame : List ℕ) :
    ((get_temperature st frame).1).humA = st.humA ∧
      ((get_temperature st frame).1).humB = st.humB := by
  unfold get_temperature
  cases h : readIntegerResponse frame
  · exact ⟨rfl, rfl⟩
  · exact ⟨rfl, rfl⟩

theorem get_humidity_preserves (st : DriverState) (hf tf : List ℕ)
    (st2 : DriverState) (r : Option ℤ) (h : get_humidity st hf tf = .ok (st2, r)) :
    st2.humA = st.humA ∧ st2.humB = st.humB := by
  unfold get_humidity at h
  split at h
  · cases h
    exact ⟨rfl, rfl⟩
  · split at h
    · dsimp only [] at h
      split at h
      · exact Except.noConfusion h
      · cases h
        unfold get_temperature
        cases h2 : readIntegerResponse tf
        · exact ⟨rfl, rfl⟩
        · exact ⟨rfl, rfl⟩
    · dsimp only [] at h
      split at h
      · exact Except.noConfusion h
      · cases h
        exact ⟨rfl, rfl⟩

theorem combined_preserves (st : DriverState) (frame : List ℕ)
    (st2 : DriverState) (p : Option ℚ × Option ℤ)
    (h : get_temperature_and_humidity st frame = .ok (st2, p)) :
    st2.humA = st.humA ∧ st2.humB = st.humB := by
  simp only [get_temperature_and_humidity] at h
  split at h
  · split at h
    · split at h
      · exact Except.noConfusion h
      · cases h
        simp [computeTemperature]
    · cases h
      simp [computeTemperature]
  · cases h
    exact ⟨rfl, rfl⟩

/-- **C10**: the `__init__` coefficient loop only terminates with both
coefficients present, and every public operation (`soft_reset`,
`get_temperature`, `get_humidity`, `get_temperature_and_humidity`) leaves
`humA` and `humB` unchanged. -/
theorem c10_coefficients_invariant :
    (∀ resp fuel i st, initDriver resp fuel i = some st →
       st.humA.isSome ∧ st.humB.isSome) ∧
    (∀ st, soft_reset st = st) ∧
    (∀ st frame, ((get_temperature st frame).1).humA = st.humA ∧
       ((get_temperature st frame).1).humB = st.humB) ∧
    (∀ st hf tf st2 r, get_humidity st hf tf = .ok (st2, r) →
       st2.humA = st.humA ∧ st2.humB = st.humB) ∧
    (∀ st frame st2 p, get_temperature_and_humidity st frame = .ok (st2, p) →
       st2.humA = st.humA ∧ st2.humB = st.humB) :=
  ⟨fun resp => initDriver_coeffs_present resp, fun _ => rfl,
   get_temperature_preserves, get_humidity_preserves, combined_preserves⟩

/-- Witness for C10: a first attempt that answers all four coefficient
sub-reads with CRC-valid frames yields a state with both coefficients
present. -/
theorem c10_coefficients_invariant_witness :
    (⟨some 1280, some 1280, none⟩ : DriverState).humA.isSome ∧
      (⟨some 1280, some 1280, none⟩ : DriverState).humB.isSome :=
  c10_coefficients_invariant.1 coeffResponses 1 0 ⟨some 1280, some 1280, none⟩ rfl

end HaiguDht22
